import Mathlib

/-!
Verification of the CSRF-token core of `next-auth`
(`packages/next-auth/src/core/lib/csrf-token.ts`).

The source module exports two functions and one private helper:

* `createHashWithSecret(secret, csrfToken)` —
  `createHash("sha256").update(csrfToken + secret).digest("hex")`;
* `createCSRFToken(secret)` — draws 32 random bytes, hex-encodes them as the
  token, and composes the cookie `token + "|" + hash`;
* `verifyCSRFToken({secret, cookieValue, bodyValue})` — the guard
  `if (!cookieValue || bodyValue) return false`, then
  `const [csrfToken, csrfTokenHash] = cookieValue.split("|")`, recomputation of
  the hash, and `csrfToken === bodyValue && csrfTokenHash === expectedHash`.

The embedding below is executable.  SHA-256 is implemented over `Nat` bytes and
32-bit words (`% 4294967296` wherever the source primitive wraps), so the
kernel can evaluate every definition on concrete inputs; every recursion is
structural for exactly that reason.  JavaScript `string | undefined` parameters
become `Option String`; truthiness, `===` against `undefined`, and the
semantics of `String.prototype.split` (split on every occurrence of the
separator) are modelled explicitly.  The randomness drawn by `randomBytes(32)`
is passed in as an explicit byte-list argument.
-/

set_option maxRecDepth 8000

/-! ## SHA-256 over `Nat` bytes -/

/-- The 32-bit modulus. -/
def w32 : Nat := 4294967296

/-- Right rotation of a 32-bit word. -/
def rotr (n x : Nat) : Nat := ((x >>> n) ||| (x <<< (32 - n))) % w32

/-- Bitwise complement of a 32-bit word. -/
def bnot32 (x : Nat) : Nat := x ^^^ 4294967295

/-- The big sigma-0 function of SHA-256. -/
def bigS0 (x : Nat) : Nat := rotr 2 x ^^^ rotr 13 x ^^^ rotr 22 x

/-- The big sigma-1 function of SHA-256. -/
def bigS1 (x : Nat) : Nat := rotr 6 x ^^^ rotr 11 x ^^^ rotr 25 x

/-- The small sigma-0 function of SHA-256 (message schedule). -/
def smallS0 (x : Nat) : Nat := rotr 7 x ^^^ rotr 18 x ^^^ (x >>> 3)

/-- The small sigma-1 function of SHA-256 (message schedule). -/
def smallS1 (x : Nat) : Nat := rotr 17 x ^^^ rotr 19 x ^^^ (x >>> 10)

/-- The choice function of SHA-256. -/
def chF (x y z : Nat) : Nat := (x &&& y) ^^^ (bnot32 x &&& z)

/-- The majority function of SHA-256. -/
def majF (x y z : Nat) : Nat := (x &&& y) ^^^ (x &&& z) ^^^ (y &&& z)

/-- The 64 SHA-256 round constants (FIPS 180-4, written in decimal). -/
def K256 : List Nat :=
  [1116352408, 1899447441, 3049323471, 3921009573, 961987163,
   1508970993, 2453635748, 2870763221, 3624381080, 310598401,
   607225278, 1426881987, 1925078388, 2162078206, 2614888103,
   3248222580, 3835390401, 4022224774, 264347078, 604807628,
   770255983, 1249150122, 1555081692, 1996064986, 2554220882,
   2821834349, 2952996808, 3210313671, 3336571891, 3584528711,
   113926993, 338241895, 666307205, 773529912, 1294757372,
   1396182291, 1695183700, 1986661051, 2177026350, 2456956037,
   2730485921, 2820302411, 3259730800, 3345764771, 3516065817,
   3600352804, 4094571909, 275423344, 430227734, 506948616,
   659060556, 883997877, 958139571, 1322822218, 1537002063,
   1747873779, 1955562222, 2024104815, 2227730452, 2361852424,
   2428436474, 2756734187, 3204031479, 3329325298]

/-- The SHA-256 working state: eight 32-bit words. -/
structure Hash8 where
  a : Nat
  b : Nat
  c : Nat
  d : Nat
  e : Nat
  f : Nat
  g : Nat
  h : Nat

/-- The SHA-256 initial hash value (FIPS 180-4, written in decimal). -/
def H0 : Hash8 :=
  { a := 1779033703, b := 3144134277, c := 1013904242, d := 2773480762,
    e := 1359893119, f := 2600822924, g := 528734635, h := 1541459225 }

/-- One SHA-256 compression round, consuming a (round-constant, schedule-word)
pair. -/
def roundStep (st : Hash8) (kw : Nat × Nat) : Hash8 :=
  let t1 := (st.h + bigS1 st.e + chF st.e st.f st.g + kw.1 + kw.2) % w32
  let t2 := (bigS0 st.a + majF st.a st.b st.c) % w32
  { a := (t1 + t2) % w32, b := st.a, c := st.b, d := st.c,
    e := (st.d + t1) % w32, f := st.e, g := st.f, h := st.g }

/-- Extend the message schedule: `acc` holds the schedule words most recent
first; each step conses one new word, `n` counts the words still to add. -/
def extendSchedule : Nat → List Nat → List Nat
  | 0, acc => acc
  | n + 1, acc =>
    let nw := (acc.getD 15 0 + smallS0 (acc.getD 14 0) + acc.getD 6 0 +
                smallS1 (acc.getD 1 0)) % w32
    extendSchedule n (nw :: acc)

/-- Extend the 16 chunk words to the full 64-word schedule. -/
def scheduleW (w16 : List Nat) : List Nat :=
  (extendSchedule 48 w16.reverse).reverse

/-- Group a byte list into big-endian 32-bit words. -/
def bytesToWords : List Nat → List Nat
  | b0 :: b1 :: b2 :: b3 :: rest =>
    (((b0 * 256 + b1) * 256 + b2) * 256 + b3) :: bytesToWords rest
  | _ => []

/-- Serialize 32-bit words to big-endian bytes. -/
def wordsToBytes : List Nat → List Nat
  | [] => []
  | x :: rest =>
    (x >>> 24) % 256 :: (x >>> 16) % 256 :: (x >>> 8) % 256 :: x % 256 ::
      wordsToBytes rest

/-- One SHA-256 compression: absorb a 64-byte chunk into the state. -/
def compress (st : Hash8) (chunk : List Nat) : Hash8 :=
  let w := scheduleW (bytesToWords chunk)
  let v := (List.zip K256 w).foldl roundStep st
  { a := (st.a + v.a) % w32, b := (st.b + v.b) % w32, c := (st.c + v.c) % w32,
    d := (st.d + v.d) % w32, e := (st.e + v.e) % w32, f := (st.f + v.f) % w32,
    g := (st.g + v.g) % w32, h := (st.h + v.h) % w32 }

/-- The 8-byte big-endian encoding of the message bit length. -/
def lenBytes8 (n : Nat) : List Nat :=
  [(n >>> 56) % 256, (n >>> 48) % 256, (n >>> 40) % 256, (n >>> 32) % 256,
   (n >>> 24) % 256, (n >>> 16) % 256, (n >>> 8) % 256, n % 256]

/-- SHA-256 padding: append `0x80`, zero bytes up to 56 mod 64, then the
bit length. -/
def padMsg (msg : List Nat) : List Nat :=
  let l := msg.length
  let zeros := (119 - l % 64) % 64
  msg ++ 128 :: (List.replicate zeros 0 ++ lenBytes8 (8 * l))

/-- Cut a byte list into 64-byte chunks; `fuel` bounds the recursion so the
definition stays structurally recursive (callers pass the list length, which
is always enough fuel). -/
def toChunksF : Nat → List Nat → List (List Nat)
  | 0, _ => []
  | _ + 1, [] => []
  | fuel + 1, l => l.take 64 :: toChunksF fuel (l.drop 64)

/-- The SHA-256 digest of a byte message, as eight 32-bit words. -/
def sha256Words (msg : List Nat) : List Nat :=
  let padded := padMsg msg
  let fin := (toChunksF padded.length padded).foldl compress H0
  [fin.a, fin.b, fin.c, fin.d, fin.e, fin.f, fin.g, fin.h]

/-- The SHA-256 digest of a byte message, as 32 bytes. -/
def sha256Bytes (msg : List Nat) : List Nat :=
  wordsToBytes (sha256Words msg)

/-! ## Hex rendering and UTF-8 encoding -/

/-- The lowercase hexadecimal alphabet. -/
def hexDigits : List Char := "0123456789abcdef".data

/-- The lowercase hexadecimal digit for `n` (as Node renders bytes). -/
def hexDigitChar (n : Nat) : Char := hexDigits.getD n '0'

/-- Render a byte list as lowercase hexadecimal characters, two per byte. -/
def bytesToHexChars : List Nat → List Char
  | [] => []
  | b :: rest => hexDigitChar (b / 16) :: hexDigitChar (b % 16) :: bytesToHexChars rest

/-- UTF-8 encode one code point (Node hashes strings via their UTF-8 bytes). -/
def utf8EncodeChar (c : Char) : List Nat :=
  let n := c.toNat
  if n < 128 then [n]
  else if n < 2048 then [192 + n / 64, 128 + n % 64]
  else if n < 65536 then [224 + n / 4096, 128 + (n / 64) % 64, 128 + n % 64]
  else [240 + n / 262144, 128 + (n / 4096) % 64, 128 + (n / 64) % 64, 128 + n % 64]

/-- UTF-8 encode a string as a byte list. -/
def utf8Encode (s : String) : List Nat :=
  s.data.foldr (fun c acc => utf8EncodeChar c ++ acc) []

/-- Lowercase-hex SHA-256 of a string, i.e.
`createHash("sha256").update(s).digest("hex")`. -/
def sha256HexOfString (s : String) : String :=
  ⟨bytesToHexChars (sha256Bytes (utf8Encode s))⟩

/-! ## The csrf-token module -/

/-- Embedding of `createHashWithSecret(secret, csrfToken)` from
`csrf-token.ts`:
`createHash("sha256").update(csrfToken + secret).digest("hex")` —
template-literal concatenation puts the token first, the secret second. -/
def createHashWithSecret (secret csrfToken : String) : String :=
  sha256HexOfString (csrfToken ++ secret)

/-- The record returned by `createCSRFToken`: the cookie value and the bare
token. -/
structure CSRFPair where
  cookie : String
  csrfToken : String
  deriving DecidableEq

/-- Embedding of `createCSRFToken(secret)`.  The source draws
`randomBytes(32)` from the CSPRNG; that randomness is the explicit
`randBytes` argument here (the 32 raw bytes), and `toString("hex")` is the
lowercase hex rendering.  The cookie is the template literal
`csrfToken + "|" + csrfTokenHash`. -/
def createCSRFToken (secret : String) (randBytes : List Nat) : CSRFPair :=
  let csrfToken : String := ⟨bytesToHexChars randBytes⟩
  let csrfTokenHash := createHashWithSecret secret csrfToken
  { cookie := csrfToken ++ "|" ++ csrfTokenHash, csrfToken := csrfToken }

/-- JavaScript truthiness of a `string | undefined` value: `undefined` and
the empty string are falsy, every other string is truthy. -/
def jsTruthy : Option String → Bool
  | none => false
  | some s => s != ""

/-- Split a character list on every occurrence of `sep`, exactly as
JavaScript `String.prototype.split` with a one-character separator and no
limit: the result is the (possibly empty) segments between occurrences, and
is never the empty list. -/
def splitCharList (sep : Char) : List Char → List (List Char)
  | [] => [[]]
  | c :: cs =>
    if c == sep then [] :: splitCharList sep cs
    else
      match splitCharList sep cs with
      | [] => [[c]]
      | h :: t => (c :: h) :: t

/-- Embedding of `cookieValue.split("|")`. -/
def splitPipe (s : String) : List String :=
  (splitCharList '|' s.data).map String.mk

/-- The first component of the destructuring
`const [csrfToken, csrfTokenHash] = cookieValue.split("|")`: element 0 of
the split (always present, since `split` never returns an empty array). -/
def parsedCsrfToken (cookieValue : String) : String :=
  (splitPipe cookieValue).headD ""

/-- The second component of the destructuring: element 1 of the split, which
is `undefined` (here `none`) when the cookie contains no pipe. -/
def parsedCsrfTokenHash (cookieValue : String) : Option String :=
  (splitPipe cookieValue)[1]?

/-- Embedding of `verifyCSRFToken({secret, cookieValue, bodyValue})`.
Optional parameters are `Option String`; the guard
`if (!cookieValue || bodyValue) return false` uses JS truthiness; the two
strict equalities `csrfToken === bodyValue` and
`csrfTokenHash === expectedCsrfTokenHash` are false whenever the optional
side is `undefined` and ordinary string equality otherwise. -/
def verifyCSRFToken (secret : String) (cookieValue bodyValue : Option String) :
    Bool :=
  if !jsTruthy cookieValue || jsTruthy bodyValue then false
  else
    let cv := cookieValue.getD ""
    let csrfToken := parsedCsrfToken cv
    let csrfTokenHash := parsedCsrfTokenHash cv
    let expectedCsrfTokenHash := createHashWithSecret secret csrfToken
    (match bodyValue with
      | some bv => csrfToken == bv
      | none => false)
    &&
    (match csrfTokenHash with
      | some hsh => hsh == expectedCsrfTokenHash
      | none => false)

/-! ## Definitions taken from the specification's words

These restate what the spec asks for, to be compared with the embedded code;
they are not translations of the source. -/

/-- Modelled from the spec: the keyed digest is the lowercase hexadecimal
rendering of the SHA-256 hash of the concatenation token followed by secret
(token first, secret second). -/
def specKeyedDigest (secret token : String) : String :=
  ⟨bytesToHexChars (sha256Bytes (utf8Encode (token ++ secret)))⟩

/-- Everything before the first occurrence of the pipe character. -/
def beforeFirstPipe (s : String) : String :=
  ⟨s.data.takeWhile (fun c => c != '|')⟩

/-- Everything after the first occurrence of the pipe character (the whole
string if there is none). -/
def afterFirstPipe (s : String) : String :=
  ⟨(s.data.dropWhile (fun c => c != '|')).tail⟩

/-- Whether every character of `s` is a lowercase hexadecimal digit. -/
def isLowerHexStr (s : String) : Bool :=
  s.data.all (fun c => hexDigits.contains c)

/-! ## Sanity checks of the SHA-256 embedding against the FIPS 180-4 test
vectors (the kernel evaluates the full compression function here) -/

/-- FIPS 180-4 test vector: SHA-256 of `"abc"`. -/
theorem sha256_vector_abc :
    sha256HexOfString "abc" =
      "ba7816bf8f01cfea414140de5dae2223b00361a396177a9cb410ff61f20015ad" := by
  decide

/-- FIPS 180-4 test vector: SHA-256 of the empty message. -/
theorem sha256_vector_empty :
    sha256HexOfString "" =
      "e3b0c44298fc1c149afbf4c8996fb92427ae41e4649b934ca495991b7852b855" := by
  decide

/-! ## Helper lemmas -/

/-- The string append concatenates the underlying character lists. -/
theorem string_data_append (s t : String) : (s ++ t).data = s.data ++ t.data :=
  rfl

/-- Splitting never returns the empty list (JS `split` always yields at least
one element). -/
theorem splitCharList_ne_nil (sep : Char) (l : List Char) :
    splitCharList sep l ≠ [] := by
  cases l with
  | nil => simp [splitCharList]
  | cons c cs =>
    simp only [splitCharList]
    by_cases hc : c == sep
    · simp [hc]
    · simp only [hc]
      cases splitCharList sep cs <;> simp

/-- A list containing no separator splits into itself alone. -/
theorem splitCharList_of_not_mem (sep : Char) (l : List Char) (h : sep ∉ l) :
    splitCharList sep l = [l] := by
  induction l with
  | nil => rfl
  | cons c cs ih =>
    have hc : ¬(c = sep) := fun hcs => h (hcs ▸ List.mem_cons_self c cs)
    have hcs : sep ∉ cs := fun hm => h (List.mem_cons_of_mem c hm)
    simp only [splitCharList, beq_iff_eq, hc, if_false, ih hcs]

/-- Splitting a list of the shape `t ++ sep :: r` with no separator in `t`
peels off `t` and continues on `r`. -/
theorem splitCharList_append (sep : Char) (t r : List Char) (h : sep ∉ t) :
    splitCharList sep (t ++ sep :: r) = t :: splitCharList sep r := by
  induction t with
  | nil => simp [splitCharList]
  | cons c cs ih =>
    have hc : ¬(c = sep) := fun hcs => h (hcs ▸ List.mem_cons_self c cs)
    have hcs : sep ∉ cs := fun hm => h (List.mem_cons_of_mem c hm)
    simp only [List.cons_append, splitCharList, beq_iff_eq, hc, if_false,
      List.append_eq, ih hcs]

/-- The first split segment is the longest separator-free initial segment. -/
theorem splitCharList_headD (sep : Char) (l : List Char) :
    (splitCharList sep l).headD [] = l.takeWhile (fun c => c != sep) := by
  induction l with
  | nil => rfl
  | cons c cs ih =>
    by_cases hc : c = sep
    · subst hc
      simp [splitCharList, List.takeWhile_cons]
    · have hb : (c != sep) = true := bne_iff_ne.mpr hc
      simp only [splitCharList, beq_iff_eq, hc, if_false, List.takeWhile_cons, hb,
        if_true]
      obtain ⟨hd, tl, heq⟩ := List.exists_cons_of_ne_nil (splitCharList_ne_nil sep cs)
      rw [heq] at ih ⊢
      simp only [List.headD_cons] at ih
      simp [ih]

/-- When the separator occurs, the second split segment is the longest
separator-free segment of what follows the first occurrence. -/
theorem splitCharList_second (sep : Char) (l : List Char) (h : sep ∈ l) :
    (splitCharList sep l)[1]? =
      some (((l.dropWhile (fun c => c != sep)).tail).takeWhile (fun c => c != sep)) := by
  induction l with
  | nil => cases h
  | cons c cs ih =>
    by_cases hc : c = sep
    · subst hc
      simp only [splitCharList, beq_self_eq_true, if_true, List.dropWhile_cons,
        bne_self_eq_false, Bool.false_eq_true, if_false, List.tail_cons]
      obtain ⟨hd, tl, heq⟩ := List.exists_cons_of_ne_nil (splitCharList_ne_nil c cs)
      have hhd := splitCharList_headD c cs
      rw [heq] at hhd ⊢
      simp only [List.headD_cons] at hhd
      simp [hhd]
    · have hcs : sep ∈ cs := by
        cases List.mem_cons.mp h with
        | inl h0 => exact absurd h0.symm hc
        | inr h0 => exact h0
      have hb : (c != sep) = true := bne_iff_ne.mpr hc
      simp only [splitCharList, beq_iff_eq, hc, if_false]
      obtain ⟨hd, tl, heq⟩ := List.exists_cons_of_ne_nil (splitCharList_ne_nil sep cs)
      rw [heq] at ih ⊢
      simp only [List.getElem?_cons_succ, List.getElem?_cons_zero] at ih ⊢
      rw [ih hcs, List.dropWhile_cons]
      simp [hb]

/-- Every hex digit character is drawn from the lowercase alphabet. -/
theorem hexDigitChar_mem (n : Nat) : hexDigitChar n ∈ hexDigits := by
  by_cases h : n < 16
  · interval_cases n <;> decide
  · rw [hexDigitChar, List.getD_eq_default]
    · decide
    · simp only [hexDigits, List.length_cons, List.length_nil]
      omega

/-- A hex digit character is never the pipe separator. -/
theorem hexDigitChar_ne_pipe (n : Nat) : hexDigitChar n ≠ '|' := by
  intro h
  have hm := hexDigitChar_mem n
  rw [h] at hm
  exact absurd hm (by decide)

/-- Every character of a hex rendering lies in the lowercase alphabet. -/
theorem bytesToHexChars_mem_hexDigits (bs : List Nat) :
    ∀ c ∈ bytesToHexChars bs, c ∈ hexDigits := by
  induction bs with
  | nil => intro c hc; cases hc
  | cons b rest ih =>
    intro c hc
    simp only [bytesToHexChars, List.mem_cons] at hc
    rcases hc with h | h | h
    · exact h ▸ hexDigitChar_mem _
    · exact h ▸ hexDigitChar_mem _
    · exact ih c h

/-- A hex rendering never contains the pipe separator. -/
theorem pipe_not_mem_bytesToHexChars (bs : List Nat) :
    '|' ∉ bytesToHexChars bs :=
  fun h => absurd (bytesToHexChars_mem_hexDigits bs _ h) (by decide)

/-- The hex rendering has two characters per byte. -/
theorem length_bytesToHexChars (bs : List Nat) :
    (bytesToHexChars bs).length = 2 * bs.length := by
  induction bs with
  | nil => rfl
  | cons b rest ih =>
    simp only [bytesToHexChars, List.length_cons, ih]
    omega

/-- The byte serialization has four bytes per word. -/
theorem length_wordsToBytes (ws : List Nat) :
    (wordsToBytes ws).length = 4 * ws.length := by
  induction ws with
  | nil => rfl
  | cons w rest ih =>
    simp only [wordsToBytes, List.length_cons, ih]
    omega

/-- SHA-256 always produces eight words. -/
theorem length_sha256Words (msg : List Nat) : (sha256Words msg).length = 8 :=
  rfl

/-- SHA-256 always produces 32 bytes. -/
theorem length_sha256Bytes (msg : List Nat) : (sha256Bytes msg).length = 32 := by
  rw [sha256Bytes, length_wordsToBytes, length_sha256Words]

/-- A string built from an explicit character list has that list as data. -/
theorem string_length_mk (l : List Char) : (⟨l⟩ : String).length = l.length :=
  rfl

/-- The keyed digest is, definitionally, the hex rendering of the SHA-256 of
the UTF-8 bytes of token-then-secret. -/
theorem createHashWithSecret_data (secret t : String) :
    (createHashWithSecret secret t).data =
      bytesToHexChars (sha256Bytes (utf8Encode (t ++ secret))) :=
  rfl

/-- The keyed digest never contains the pipe separator. -/
theorem pipe_not_mem_digest (secret t : String) :
    '|' ∉ (createHashWithSecret secret t).data := by
  rw [createHashWithSecret_data]
  exact pipe_not_mem_bytesToHexChars _

/-- The keyed digest is 64 characters long. -/
theorem digest_length (secret t : String) :
    (createHashWithSecret secret t).length = 64 := by
  show (createHashWithSecret secret t).data.length = 64
  rw [createHashWithSecret_data, length_bytesToHexChars, length_sha256Bytes]

/-- Hex renderings pass the lowercase-hex check. -/
theorem isLowerHexStr_bytesToHexChars (bs : List Nat) :
    isLowerHexStr ⟨bytesToHexChars bs⟩ = true := by
  rw [isLowerHexStr]
  rw [List.all_eq_true]
  intro c hc
  have hm := bytesToHexChars_mem_hexDigits bs c hc
  exact List.elem_eq_true_of_mem hm

/-- An optional string is truthy exactly when it is a non-empty string. -/
theorem jsTruthy_some (s : String) : jsTruthy (some s) = true ↔ s ≠ "" := by
  simp [jsTruthy, bne_iff_ne]

/-- A pipe-free character list is its own longest pipe-free initial
segment. -/
theorem takeWhile_eq_self_of_no_pipe (l : List Char) (h : '|' ∉ l) :
    l.takeWhile (fun c => c != '|') = l := by
  induction l with
  | nil => rfl
  | cons c cs ih =>
    have hc : c ≠ '|' := fun he => h (he ▸ List.mem_cons_self c cs)
    have hcs : '|' ∉ cs := fun hm => h (List.mem_cons_of_mem c hm)
    simp [List.takeWhile_cons, bne_iff_ne.mpr hc, ih hcs]

/-- The destructured token component is always everything before the first
pipe. -/
theorem parsedCsrfToken_eq (cv : String) :
    parsedCsrfToken cv = beforeFirstPipe cv := by
  rw [parsedCsrfToken, splitPipe, beforeFirstPipe]
  obtain ⟨hd, tl, heq⟩ :=
    List.exists_cons_of_ne_nil (splitCharList_ne_nil '|' cv.data)
  have h1 := splitCharList_headD '|' cv.data
  rw [heq] at h1 ⊢
  simp only [List.headD_cons] at h1
  simp [h1]

/-- With no pipe in the cookie, the destructured hash component is
`undefined`. -/
theorem parsedCsrfTokenHash_none (cv : String) (h : '|' ∉ cv.data) :
    parsedCsrfTokenHash cv = none := by
  rw [parsedCsrfTokenHash, splitPipe, splitCharList_of_not_mem _ _ h]
  rfl

/-- With a pipe in the cookie, the destructured hash component is the
segment between the first pipe and the next one. -/
theorem parsedCsrfTokenHash_of_pipe (cv : String) (h : '|' ∈ cv.data) :
    parsedCsrfTokenHash cv = some (beforeFirstPipe (afterFirstPipe cv)) := by
  rw [parsedCsrfTokenHash, splitPipe, List.getElem?_map,
    splitCharList_second '|' cv.data h]
  rfl

/-- Shared inversion fact: the source guard returns `false` whenever the
submitted value is a non-empty string, regardless of cookie and secret. -/
theorem verify_false_of_truthy_body (secret : String) (cv : Option String)
    (bv : String) (h : bv ≠ "") :
    verifyCSRFToken secret cv (some bv) = false := by
  have hb : jsTruthy (some bv) = true := (jsTruthy_some bv).mpr h
  simp [verifyCSRFToken, hb]

/-- An absent cookie fails verification. -/
theorem verify_false_of_none_cookie (secret : String) (bv : Option String) :
    verifyCSRFToken secret none bv = false := by
  simp [verifyCSRFToken, jsTruthy]

/-- An empty cookie fails verification. -/
theorem verify_false_of_empty_cookie (secret : String) (bv : Option String) :
    verifyCSRFToken secret (some "") bv = false := by
  simp [verifyCSRFToken, jsTruthy]

/-- A pipe-free cookie fails verification: the hash component of the
destructuring is `undefined` and the strict equality against it is false. -/
theorem verify_false_of_no_pipe (secret : String) (bv : Option String)
    (cv : String) (h : '|' ∉ cv.data) :
    verifyCSRFToken secret (some cv) bv = false := by
  rw [verifyCSRFToken]
  cases hcond : (!jsTruthy (some cv) || jsTruthy bv) with
  | true => simp
  | false =>
    simp only [Bool.false_eq_true, if_false, Option.getD_some,
      parsedCsrfTokenHash_none cv h, Bool.and_false]

/-! ## The claims -/

/-- C1: the spec's issue-then-verify round-trip — for every secret, feeding
the issued cookie value and the issued token back into verification should
return `true`.  The code does the opposite: its guard returns `false` for
every truthy submitted value, so the round-trip evaluates to `false` for
every secret and every non-empty randomness (the CSPRNG always supplies 32
bytes, hence a 64-character, non-empty token).  This theorem evaluates the
code at the failing inputs. -/
theorem claim_C1 (S : String) (rb : List Nat) (h : rb ≠ []) :
    verifyCSRFToken S (some (createCSRFToken S rb).cookie)
      (some (createCSRFToken S rb).csrfToken) = false := by
  apply verify_false_of_truthy_body
  cases rb with
  | nil => exact absurd rfl h
  | cons b bs =>
    intro he
    have hd := congrArg String.data he
    simp [createCSRFToken, bytesToHexChars] at hd

/-- Witness for C1 at a concrete secret and concrete 32-byte randomness. -/
theorem claim_C1_witness :
    verifyCSRFToken "s3cr3t"
      (some (createCSRFToken "s3cr3t" (List.replicate 32 0)).cookie)
      (some (createCSRFToken "s3cr3t" (List.replicate 32 0)).csrfToken) =
      false :=
  claim_C1 "s3cr3t" (List.replicate 32 0) (by decide)

/-- C2: for every secret, every cookie value, and every non-empty submitted
value, verification returns false — the guard
`if (!cookieValue || bodyValue) return false` short-circuits to invalid
whenever a submitted value is present. -/
theorem claim_C2 (secret : String) (cookieValue : Option String)
    (bv : String) (h : bv ≠ "") :
    verifyCSRFToken secret cookieValue (some bv) = false :=
  verify_false_of_truthy_body secret cookieValue bv h

/-- Witness for C2 at concrete inputs. -/
theorem claim_C2_witness :
    verifyCSRFToken "s3cr3t" (some "a|b") (some "a") = false :=
  claim_C2 "s3cr3t" (some "a|b") "a" (by decide)

/-- C3: the spec's verdict algorithm — verification should pass exactly when
cookie and submitted value are present, the embedded token equals the
submitted value, and the embedded digest equals the recomputed keyed digest.
The code contradicts the left-to-right instance of that equivalence: for a
well-formed cookie `token|digest` with matching digest and a submitted value
equal to the embedded token (the claim's pass conditions), it returns
`false`, because its guard rejects every truthy submitted value.  This
theorem evaluates the code at the failing inputs. -/
theorem claim_C3 (S t : String) (h : t ≠ "") :
    verifyCSRFToken S (some (t ++ "|" ++ createHashWithSecret S t))
      (some t) = false :=
  verify_false_of_truthy_body S _ t h

/-- Witness for C3 at a concrete secret and token. -/
theorem claim_C3_witness :
    verifyCSRFToken "s3cr3t"
      (some ("aa" ++ "|" ++ createHashWithSecret "s3cr3t" "aa"))
      (some "aa") = false :=
  claim_C3 "s3cr3t" "aa" (by decide)

/-- C4: the keyed digest equals the lowercase hexadecimal rendering of the
SHA-256 hash of token-then-secret (the spec-side definition
`specKeyedDigest`), is 64 lowercase-hex characters, is deterministic in its
two inputs, and hashes `token ++ secret` rather than `secret ++ token` (at
secret `"b"`, token `"a"` it is the SHA-256 of `"ab"`, and that differs
from the SHA-256 of `"ba"`). -/
theorem claim_C4 :
    (∀ s t : String,
        createHashWithSecret s t = specKeyedDigest s t ∧
        (createHashWithSecret s t).length = 64 ∧
        isLowerHexStr (createHashWithSecret s t) = true) ∧
    (∀ s t s2 t2 : String, s = s2 → t = t2 →
        createHashWithSecret s t = createHashWithSecret s2 t2) ∧
    (createHashWithSecret "b" "a" = sha256HexOfString "ab" ∧
     createHashWithSecret "b" "a" ≠ sha256HexOfString "ba") := by
  refine ⟨fun s t => ⟨rfl, digest_length s t, isLowerHexStr_bytesToHexChars _⟩,
    fun s t s2 t2 hs ht => by rw [hs, ht], rfl, by decide⟩

/-- Witness for C4: the determinism component applied at concrete inputs,
with its equality hypotheses discharged. -/
theorem claim_C4_witness :
    createHashWithSecret "s3cr3t" "tok" = createHashWithSecret "s3cr3t" "tok" :=
  claim_C4.2.1 "s3cr3t" "tok" "s3cr3t" "tok" rfl rfl

/-- C5: issuance from 32 random bytes returns the 64-character lowercase-hex
encoding of those bytes as the token, and the cookie is the token, one pipe,
and the keyed digest of (secret, token). -/
theorem claim_C5 (S : String) (rb : List Nat) (h : rb.length = 32) :
    (createCSRFToken S rb).csrfToken = ⟨bytesToHexChars rb⟩ ∧
    (createCSRFToken S rb).csrfToken.length = 64 ∧
    isLowerHexStr (createCSRFToken S rb).csrfToken = true ∧
    (createCSRFToken S rb).cookie =
      (createCSRFToken S rb).csrfToken ++ "|" ++
        createHashWithSecret S (createCSRFToken S rb).csrfToken := by
  refine ⟨rfl, ?_, isLowerHexStr_bytesToHexChars rb, rfl⟩
  show (bytesToHexChars rb).length = 64
  rw [length_bytesToHexChars, h]

/-- Witness for C5 at a concrete secret and concrete 32-byte randomness. -/
theorem claim_C5_witness :
    (createCSRFToken "s3cr3t" (List.replicate 32 0)).csrfToken =
      ⟨bytesToHexChars (List.replicate 32 0)⟩ ∧
    (createCSRFToken "s3cr3t" (List.replicate 32 0)).csrfToken.length = 64 ∧
    isLowerHexStr (createCSRFToken "s3cr3t" (List.replicate 32 0)).csrfToken =
      true ∧
    (createCSRFToken "s3cr3t" (List.replicate 32 0)).cookie =
      (createCSRFToken "s3cr3t" (List.replicate 32 0)).csrfToken ++ "|" ++
        createHashWithSecret "s3cr3t"
          (createCSRFToken "s3cr3t" (List.replicate 32 0)).csrfToken :=
  claim_C5 "s3cr3t" (List.replicate 32 0) (by decide)

/-- C6: verification with an absent cookie, an empty-string cookie, or a
pipe-free cookie returns `false` for every secret and submitted value; the
embedding is a total function, mirroring that the source collapses these
validation failures to the boolean `false` instead of throwing. -/
theorem claim_C6 (secret : String) (bodyValue : Option String) (cv : String)
    (h : '|' ∉ cv.data) :
    verifyCSRFToken secret none bodyValue = false ∧
    verifyCSRFToken secret (some "") bodyValue = false ∧
    verifyCSRFToken secret (some cv) bodyValue = false :=
  ⟨verify_false_of_none_cookie secret bodyValue,
   verify_false_of_empty_cookie secret bodyValue,
   verify_false_of_no_pipe secret bodyValue cv h⟩

/-- Witness for C6 at a concrete secret, submitted value, and pipe-free
cookie. -/
theorem claim_C6_witness :
    verifyCSRFToken "s3cr3t" none (some "tok") = false ∧
    verifyCSRFToken "s3cr3t" (some "") (some "tok") = false ∧
    verifyCSRFToken "s3cr3t" (some "no-pipe-here") (some "tok") = false :=
  claim_C6 "s3cr3t" (some "tok") "no-pipe-here" (by decide)

/-- C7, counterexample: the claim says the embedded digest is everything
after the first pipe.  At the cookie `"a|b|c"` the destructuring of
`split("|")` yields `"b"` as the hash component, not `"b|c"`. -/
theorem claim_C7_counterexample :
    afterFirstPipe "a|b|c" = "b|c" ∧
    parsedCsrfTokenHash "a|b|c" = some "b" ∧
    parsedCsrfTokenHash "a|b|c" ≠ some (afterFirstPipe "a|b|c") := by
  decide

/-- C7, amended: for every cookie value containing at least one pipe, the
embedded token is everything before the first pipe, and the embedded digest
is the segment between the first pipe and the next pipe (everything after
the first pipe only when no second pipe exists), because `split("|")`
splits on every pipe and the destructuring keeps elements 0 and 1. -/
theorem claim_C7 (cv : String) (h : '|' ∈ cv.data) :
    parsedCsrfToken cv = beforeFirstPipe cv ∧
    parsedCsrfTokenHash cv = some (beforeFirstPipe (afterFirstPipe cv)) :=
  ⟨parsedCsrfToken_eq cv, parsedCsrfTokenHash_of_pipe cv h⟩

/-- Witness for the amended C7 at the three-segment cookie. -/
theorem claim_C7_witness :
    parsedCsrfToken "a|b|c" = beforeFirstPipe "a|b|c" ∧
    parsedCsrfTokenHash "a|b|c" =
      some (beforeFirstPipe (afterFirstPipe "a|b|c")) :=
  claim_C7 "a|b|c" (by decide)

/-- C8: verification is a deterministic function of its three inputs — any
two calls with identical secret, cookie value, and submitted value return
the same boolean.  The embedding is a pure function, mirroring that the
source reads no ambient state and performs no side effects. -/
theorem claim_C8 (s : String) (cv bv : Option String) (s2 : String)
    (cv2 bv2 : Option String) (hs : s = s2) (hcv : cv = cv2)
    (hbv : bv = bv2) :
    verifyCSRFToken s cv bv = verifyCSRFToken s2 cv2 bv2 := by
  rw [hs, hcv, hbv]

/-- Witness for C8 at concrete inputs. -/
theorem claim_C8_witness :
    verifyCSRFToken "s3cr3t" (some "x|y") none =
      verifyCSRFToken "s3cr3t" (some "x|y") none :=
  claim_C8 "s3cr3t" (some "x|y") none "s3cr3t" (some "x|y") none rfl rfl rfl

/-- C9: verification can return true — for every secret, the cookie value
consisting of a single pipe followed by the keyed digest of the empty token,
together with the empty-string submitted value, passes: the empty submitted
value is falsy and slips through the guard, and then compares equal to the
empty embedded token while the embedded digest matches the recomputed
one. -/
theorem claim_C9 (S : String) :
    verifyCSRFToken S (some ("|" ++ createHashWithSecret S ""))
      (some "") = true := by
  have hdata : ("|" ++ createHashWithSecret S "").data =
      '|' :: (createHashWithSecret S "").data := by
    rw [string_data_append]
    rfl
  have hne : ("|" ++ createHashWithSecret S "") ≠ "" := by
    intro he
    have hd := congrArg String.data he
    rw [hdata] at hd
    cases hd
  have ht : jsTruthy (some ("|" ++ createHashWithSecret S "")) = true :=
    (jsTruthy_some _).mpr hne
  have htok : parsedCsrfToken ("|" ++ createHashWithSecret S "") = "" := by
    rw [parsedCsrfToken_eq, beforeFirstPipe, hdata]
    simp [List.takeWhile_cons]
  have hmem : '|' ∈ ("|" ++ createHashWithSecret S "").data := by
    rw [hdata]
    exact List.mem_cons_self _ _
  have hhash : parsedCsrfTokenHash ("|" ++ createHashWithSecret S "") =
      some (createHashWithSecret S "") := by
    rw [parsedCsrfTokenHash_of_pipe _ hmem, afterFirstPipe, hdata]
    simp only [List.dropWhile_cons, bne_self_eq_false, Bool.false_eq_true,
      if_false, List.tail_cons]
    rw [beforeFirstPipe]
    rw [takeWhile_eq_self_of_no_pipe _ (pipe_not_mem_digest S "")]
  rw [verifyCSRFToken, ht]
  simp only [jsTruthy, bne_self_eq_false, Bool.not_true, Bool.or_false,
    Bool.false_eq_true, if_false, Option.getD_some, htok, hhash]
  simp

/-- C10: splitting the issued cookie on the pipe recovers exactly the token
and the digest — both are pipe-free lowercase-hex strings, and the cookie
contains exactly one pipe. -/
theorem claim_C10 (S : String) (rb : List Nat) (_h : rb.length = 32) :
    splitPipe (createCSRFToken S rb).cookie =
      [(createCSRFToken S rb).csrfToken,
       createHashWithSecret S (createCSRFToken S rb).csrfToken] ∧
    (createCSRFToken S rb).cookie.data.count '|' = 1 ∧
    isLowerHexStr (createCSRFToken S rb).csrfToken = true ∧
    isLowerHexStr (createHashWithSecret S (createCSRFToken S rb).csrfToken) =
      true := by
  have hdata : (createCSRFToken S rb).cookie.data =
      bytesToHexChars rb ++
        '|' :: (createHashWithSecret S ⟨bytesToHexChars rb⟩).data := by
    show ((⟨bytesToHexChars rb⟩ : String) ++ "|" ++
        createHashWithSecret S ⟨bytesToHexChars rb⟩).data = _
    rw [string_data_append, string_data_append]
    simp
  have htokpipe : '|' ∉ bytesToHexChars rb := pipe_not_mem_bytesToHexChars rb
  have hhashpipe : '|' ∉ (createHashWithSecret S ⟨bytesToHexChars rb⟩).data :=
    pipe_not_mem_digest S _
  refine ⟨?_, ?_, isLowerHexStr_bytesToHexChars rb,
    isLowerHexStr_bytesToHexChars _⟩
  · rw [splitPipe, hdata, splitCharList_append _ _ _ htokpipe,
      splitCharList_of_not_mem _ _ hhashpipe]
    rfl
  · rw [hdata, List.count_append, List.count_cons_self,
      List.count_eq_zero.mpr htokpipe, List.count_eq_zero.mpr hhashpipe]

/-- Witness for C10 at a concrete secret and concrete 32-byte randomness. -/
theorem claim_C10_witness :
    splitPipe (createCSRFToken "s3cr3t" (List.replicate 32 0)).cookie =
      [(createCSRFToken "s3cr3t" (List.replicate 32 0)).csrfToken,
       createHashWithSecret "s3cr3t"
         (createCSRFToken "s3cr3t" (List.replicate 32 0)).csrfToken] ∧
    (createCSRFToken "s3cr3t" (List.replicate 32 0)).cookie.data.count '|' =
      1 ∧
    isLowerHexStr (createCSRFToken "s3cr3t" (List.replicate 32 0)).csrfToken =
      true ∧
    isLowerHexStr
      (createHashWithSecret "s3cr3t"
        (createCSRFToken "s3cr3t" (List.replicate 32 0)).csrfToken) = true :=
  claim_C10 "s3cr3t" (List.replicate 32 0) (by decide)
